import Mathlib

/-!
Shallow embedding of the quiz session logic of `src/script.js` (tadb-mcq).

The script keeps four module-level variables (lines 6-12): `currentQuestions`
(the shuffled question list), `currentQuestionIndex`, `score`, and the Map
`answeredQuestions`.  These four fields form `QuizState` below.  The DOM
rendering (`loadQuestion`, `updateScore`, the feedback strings) writes no
session state other than through the operations modelled here, so it is
projected away; what it does determine is which clicks are possible, and
that is recorded in the doc comments of `clickOption`.

JavaScript arrays are modelled as `List`, the answer `Map` as an association
list with `Map.set` / `Map.get` semantics (`mapSet` / `mapGet`), and
`Math.random()` draws as a stream `rand : Nat → Nat` where the draw used at
loop index `i` is read as `rand i % (i + 1)`, matching the guarantee that
`Math.floor(Math.random() * (i + 1))` lies in `[0, i]`.

For the two aliasing claims (in-place mutation of the shuffled array, and
non-mutation of the external `allQuestions` bank) arrays are additionally
given a tiny heap semantics: a `Store` maps references (indices) to array
contents, `[...allQuestions]` is an allocation, and the in-place swaps of
`shuffleArray` are a write through the passed reference.
-/

/-- One question record of the bank (`questions.js` shape used by
`script.js`): `q` the text, `o` the option list, `a` the correct index. -/
structure Question where
  q : String
  o : List String
  a : Nat
deriving DecidableEq

/-- Value stored in the `answeredQuestions` Map (line 126):
`{ selected: user's choice, correct: correct answer index }`. -/
structure AnswerRecord where
  selected : Nat
  correct : Nat
deriving DecidableEq

/-- The module-level session state of `script.js` (lines 6-12). -/
structure QuizState where
  currentQuestions : List Question
  currentQuestionIndex : Nat
  score : Nat
  answeredQuestions : List (Nat × AnswerRecord)
deriving DecidableEq

/-- Lookup with JavaScript `Map.get` semantics on the association list. -/
def mapGet (m : List (Nat × AnswerRecord)) (k : Nat) : Option AnswerRecord :=
  match m with
  | [] => none
  | (k2, v) :: rest => if k2 = k then some v else mapGet rest k

/-- Update with JavaScript `Map.set` semantics: overwrite the existing key
or append a new entry. -/
def mapSet (m : List (Nat × AnswerRecord)) (k : Nat) (v : AnswerRecord) :
    List (Nat × AnswerRecord) :=
  match m with
  | [] => [(k, v)]
  | (k2, v2) :: rest =>
    if k2 = k then (k, v) :: rest else (k2, v2) :: mapSet rest k v

/-- Swap of the elements at positions `i` and `j`, the effect of
`[array[i], array[j]] = [array[j], array[i]]` (line 37).  If either index is
out of range the list is returned unchanged (unreachable in the loop, whose
indices are always in range). -/
def swapAt2 (l : List α) (i j : Nat) : List α :=
  match l[i]?, l[j]? with
  | some vi, some vj => (l.set i vj).set j vi
  | _, _ => l

/-- The Fisher-Yates loop of `shuffleArray` (lines 33-38), run for
`i = k, k-1, ..., 1` (the loop guard is `i > 0`): at each `i` draw
`j = Math.floor(Math.random() * (i + 1)) ∈ [0, i]` and swap positions `i`
and `j`. -/
def fisherYatesFrom (rand : Nat → Nat) : Nat → List α → List α
  | 0, a => a
  | k + 1, a => fisherYatesFrom rand k (swapAt2 a (k + 1) (rand (k + 1) % (k + 2)))

/-- Contents produced by `shuffleArray` (lines 31-40): the Fisher-Yates loop
started at `i = array.length - 1`. -/
def shuffleArray (rand : Nat → Nat) (array : List α) : List α :=
  fisherYatesFrom rand (array.length - 1) array

/-- The state written by `startQuiz` (lines 45-60): `currentQuestions`
becomes `shuffleArray([...allQuestions])`, and `currentQuestionIndex`,
`score`, `answeredQuestions` are reset (lines 51-53).  The prior session
state is discarded entirely: `startQuiz` reads none of it. -/
def startQuiz (rand : Nat → Nat) (allQuestions : List Question) : QuizState :=
  { currentQuestions := shuffleArray rand allQuestions
    currentQuestionIndex := 0
    score := 0
    answeredQuestions := [] }

/-- State change of `handleOptionClick` (lines 124-154): store
`{selected, correct}` under the current index and increment `score` when the
choice is correct.  The DOM feedback (lines 130-150) touches no session
state. -/
def handleOptionClick (s : QuizState) (selectedIndex correctIndex : Nat) :
    QuizState :=
  { s with
    answeredQuestions :=
      mapSet s.answeredQuestions s.currentQuestionIndex
        ⟨selectedIndex, correctIndex⟩
    score := if selectedIndex = correctIndex then s.score + 1 else s.score }

/-- Outcome of one click attempt on an option button, as the DOM realises
the error taxonomy of the spec: `invalidOption` when no button with that
index exists (`loadQuestion` creates one button per option, line 82),
`alreadyAnswered` when the button exists but is disabled with no click
listener (lines 88-101), `noCurrentQuestion` when `loadQuestion` rendered
nothing (bounds check, line 67). -/
inductive ClickResult where
  | answered (correct : Bool) (correctIndex : Nat)
  | alreadyAnswered
  | invalidOption
  | noCurrentQuestion
deriving DecidableEq

/-- One user click on the option button `selectedIndex` of the current
question.  `loadQuestion` (lines 66-116) determines reachability: a button
exists only for `selectedIndex < question.o.length`; for an already answered
question every button is disabled and carries no click listener, so the
click changes nothing; otherwise the listener runs
`handleOptionClick(button, i, question.a)` (line 101). -/
def clickOption (s : QuizState) (selectedIndex : Nat) :
    QuizState × ClickResult :=
  match s.currentQuestions[s.currentQuestionIndex]? with
  | none => (s, .noCurrentQuestion)
  | some question =>
    if selectedIndex < question.o.length then
      match mapGet s.answeredQuestions s.currentQuestionIndex with
      | some _ => (s, .alreadyAnswered)
      | none =>
        (handleOptionClick s selectedIndex question.a,
         .answered (selectedIndex = question.a) question.a)
    else (s, .invalidOption)

/-- `nextQuestion` (lines 166-171): advance when strictly before the last
index, otherwise do nothing.  (With `currentQuestions` empty the JavaScript
guard compares against `-1` and is false; here `0 - 1 = 0` in `Nat` and the
guard is likewise false.) -/
def nextQuestion (s : QuizState) : QuizState :=
  if s.currentQuestionIndex < s.currentQuestions.length - 1 then
    { s with currentQuestionIndex := s.currentQuestionIndex + 1 }
  else s

/-- `prevQuestion` (lines 176-181): step back when the index is positive,
otherwise do nothing. -/
def prevQuestion (s : QuizState) : QuizState :=
  if 0 < s.currentQuestionIndex then
    { s with currentQuestionIndex := s.currentQuestionIndex - 1 }
  else s

/-- `jumpToQuestion` (lines 186-196).  The argument is the result of
`parseInt(jumpInput.value)`: `some n` for an integer, `none` for `NaN`
(every comparison with `NaN` is false, so `NaN` takes the `else` branch).
The second component is the alert: `some (lo, hi)` models the message
carrying the valid range `[1, currentQuestions.length]` (line 194), `none`
means success. -/
def jumpToQuestion (s : QuizState) (num : Option Int) :
    QuizState × Option (Int × Int) :=
  match num with
  | some n =>
    if 1 ≤ n ∧ n ≤ (s.currentQuestions.length : Int) then
      ({ s with currentQuestionIndex := (n - 1).toNat }, none)
    else (s, some (1, (s.currentQuestions.length : Int)))
  | none => (s, some (1, (s.currentQuestions.length : Int)))

/-- States the script can reach: `startQuiz` runs at load (line 214), and
every event listener (lines 200-210) invokes one of the modelled
operations; `Reachable.start` also covers the restart wired to the shuffle
button. -/
inductive Reachable : QuizState → Prop where
  | start (rand : Nat → Nat) (bank : List Question) : Reachable (startQuiz rand bank)
  | click (s : QuizState) (i : Nat) : Reachable s → Reachable (clickOption s i).1
  | next (s : QuizState) : Reachable s → Reachable (nextQuestion s)
  | prev (s : QuizState) : Reachable s → Reachable (prevQuestion s)
  | jump (s : QuizState) (n : Option Int) : Reachable s → Reachable (jumpToQuestion s n).1

/-- Count of stored answers whose selected option is the correct one; the
recount that the spec requires `score` to equal. -/
def scoreCount (m : List (Nat × AnswerRecord)) : Nat :=
  (m.filter fun p => p.2.selected = p.2.correct).length

/-! ### Heap model for the aliasing claims -/

/-- A heap of JavaScript arrays: reference `r` denotes the array at index
`r`; reading a dangling reference yields `[]`. -/
abbrev Store (α : Type) := List (List α)

/-- Contents of the array at reference `r`. -/
def readArr (s : Store α) (r : Nat) : List α := s.getD r []

/-- Overwrite the contents of the array at reference `r`. -/
def writeArr (s : Store α) (r : Nat) (v : List α) : Store α := s.set r v

/-- Allocate a fresh array holding `v`; returns the new store and the new
reference.  This is what a spread `[...a]` does. -/
def allocArr (s : Store α) (v : List α) : Store α × Nat :=
  (s ++ [v], s.length)

/-- Heap semantics of a call `shuffleArray(arr)` where `arr` is the array at
reference `r`: the loop (lines 33-38) swaps elements of that very array in
place, so after the call the array at `r` holds `shuffleArray` of its prior
contents, and line 39 returns the same reference. -/
def shuffleArrayCall (rand : Nat → Nat) (s : Store α) (r : Nat) :
    Store α × Nat :=
  (writeArr s r (shuffleArray rand (readArr s r)), r)

/-- Heap semantics of `startQuiz` (lines 45-60) with the external bank
`allQuestions` living at reference `aq`: line 48 first allocates the spread
copy `[...allQuestions]`, passes that fresh reference to `shuffleArray`,
and stores the returned (same) reference's contents as `currentQuestions`. -/
def startQuizCall (rand : Nat → Nat) (s : Store Question) (aq : Nat) :
    Store Question × QuizState :=
  let alloc := allocArr s (readArr s aq)
  let shuffled := shuffleArrayCall rand alloc.1 alloc.2
  (shuffled.1,
   { currentQuestions := readArr shuffled.1 shuffled.2
     currentQuestionIndex := 0
     score := 0
     answeredQuestions := [] })

/-! ### Permutation lemmas for the shuffle -/

/-- Setting position `i` (currently holding `vi`) to `b` exchanges `vi` for
`b` in the underlying multiset. -/
theorem coe_set_cons {α : Type _} (l : List α) (i : Nat) (b vi : α)
    (h : l[i]? = some vi) :
    (vi ::ₘ (↑(l.set i b) : Multiset α)) = b ::ₘ (↑l : Multiset α) := by
  induction l generalizing i with
  | nil => simp at h
  | cons x xs ih =>
    cases i with
    | zero =>
      simp only [List.getElem?_cons_zero, Option.some.injEq] at h
      subst h
      simp only [List.set, ← Multiset.cons_coe]
      exact Multiset.cons_swap x b ↑xs
    | succ k =>
      simp only [List.getElem?_cons_succ] at h
      have hx := ih k h
      simp only [List.set, ← Multiset.cons_coe]
      rw [Multiset.cons_swap vi x, hx, Multiset.cons_swap]

/-- A swap is a permutation. -/
theorem swapAt2_perm (l : List α) (i j : Nat) : (swapAt2 l i j).Perm l := by
  unfold swapAt2
  cases hvi : l[i]? with
  | none => exact List.Perm.refl l
  | some vi =>
    cases hvj : l[j]? with
    | none => exact List.Perm.refl l
    | some vj =>
      simp only
      rw [← Multiset.coe_eq_coe]
      by_cases hij : i = j
      · subst hij
        have : vi = vj := by rw [hvi] at hvj; exact Option.some.injEq vi vj ▸ hvj
        subst this
        rw [List.set_set]
        have h1 := coe_set_cons l i vi vi hvi
        exact (Multiset.cons_inj_right vi).1 h1
      · have hvj2 : (l.set i vj)[j]? = some vj := by
          rw [List.getElem?_set_ne (fun hh => hij hh)]
          exact hvj
        have h1 := coe_set_cons l i vj vi hvi
        have h2 := coe_set_cons (l.set i vj) j vi vj hvj2
        rw [h1] at h2
        exact (Multiset.cons_inj_right vj).1 h2

/-- Every run of the Fisher-Yates loop is a permutation of its input. -/
theorem fisherYatesFrom_perm (rand : Nat → Nat) (k : Nat) (a : List α) :
    (fisherYatesFrom rand k a).Perm a := by
  induction k generalizing a with
  | zero => exact List.Perm.refl a
  | succ n ih =>
    exact (ih _).trans (swapAt2_perm a (n + 1) (rand (n + 1) % (n + 2)))

/-- `shuffleArray` permutes its input. -/
theorem shuffleArray_perm (rand : Nat → Nat) (a : List α) :
    (shuffleArray rand a).Perm a :=
  fisherYatesFrom_perm rand (a.length - 1) a

example : shuffleArray (fun _ => 0) [10, 20, 30] = [20, 30, 10] := by decide

example : (clickOption (startQuiz (fun _ => 0) [⟨"q0", ["x", "y"], 1⟩]) 1).1.score = 1 := by
  decide

/-! ### Helper lemmas for the score invariant -/

/-- Unfolding equation for `mapGet` on a cons cell. -/
theorem mapGet_cons (k2 : Nat) (v2 : AnswerRecord)
    (rest : List (Nat × AnswerRecord)) (k : Nat) :
    mapGet ((k2, v2) :: rest) k = if k2 = k then some v2 else mapGet rest k := rfl

/-- Unfolding equation for `mapSet` on a cons cell. -/
theorem mapSet_cons (k2 : Nat) (v2 : AnswerRecord)
    (rest : List (Nat × AnswerRecord)) (k : Nat) (v : AnswerRecord) :
    mapSet ((k2, v2) :: rest) k v
      = if k2 = k then (k, v) :: rest else (k2, v2) :: mapSet rest k v := rfl

/-- The recount of a cons is the head's contribution plus the tail's
recount. -/
theorem scoreCount_cons (p : Nat × AnswerRecord) (m : List (Nat × AnswerRecord)) :
    scoreCount (p :: m)
      = (if p.2.selected = p.2.correct then 1 else 0) + scoreCount m := by
  by_cases hp : p.2.selected = p.2.correct <;>
    simp [scoreCount, List.filter_cons, hp]
  omega

/-- Inserting a fresh key adds exactly its correctness contribution to the
recount. -/
theorem scoreCount_mapSet_absent (m : List (Nat × AnswerRecord)) (k : Nat)
    (v : AnswerRecord) (h : mapGet m k = none) :
    scoreCount (mapSet m k v)
      = scoreCount m + (if v.selected = v.correct then 1 else 0) := by
  induction m with
  | nil =>
    by_cases hv : v.selected = v.correct <;>
      simp [mapSet, scoreCount, List.filter, hv]
  | cons p rest ih =>
    obtain ⟨k2, v2⟩ := p
    rw [mapGet_cons] at h
    by_cases hk : k2 = k
    · rw [if_pos hk] at h
      cases h
    · have ih2 := ih (by rwa [if_neg hk] at h)
      rw [mapSet_cons, if_neg hk, scoreCount_cons, scoreCount_cons, ih2]
      omega

/-- Case analysis of `clickOption`: either the state is returned untouched,
or the current question exists, the index is in range, the question is
unanswered, and `handleOptionClick` ran. -/
theorem clickOption_fst_cases (s : QuizState) (i : Nat) :
    (clickOption s i).1 = s ∨
    ∃ question, s.currentQuestions[s.currentQuestionIndex]? = some question ∧
      i < question.o.length ∧
      mapGet s.answeredQuestions s.currentQuestionIndex = none ∧
      (clickOption s i).1 = handleOptionClick s i question.a := by
  cases hq : s.currentQuestions[s.currentQuestionIndex]? with
  | none => left; simp [clickOption, hq]
  | some question =>
    by_cases hi : i < question.o.length
    · cases ha : mapGet s.answeredQuestions s.currentQuestionIndex with
      | some r => left; simp [clickOption, hq, hi, ha]
      | none => right; exact ⟨question, rfl, hi, rfl, by simp [clickOption, hq, hi, ha]⟩
    · left; simp [clickOption, hq, hi]

/-- C1: at every reachable state of a session (after the initial
`startQuiz` and any sequence of clicks, next/prev navigation, jumps, and
restarts), `score` equals the number of entries of `answeredQuestions`
whose selected index equals the correct index. -/
theorem score_matches_recount (s : QuizState) (h : Reachable s) :
    s.score = scoreCount s.answeredQuestions := by
  induction h with
  | start rand bank => rfl
  | click s i hs ih =>
    rcases clickOption_fst_cases s i with heq | ⟨question, hq, hi, ha, heq⟩
    · rw [heq]; exact ih
    · rw [heq]
      simp only [handleOptionClick]
      rw [scoreCount_mapSet_absent _ _ _ ha]
      by_cases hc : i = question.a
      · simp [hc, ih]
      · simp [hc, ih]
  | next s hs ih =>
    unfold nextQuestion
    split <;> exact ih
  | prev s hs ih =>
    unfold prevQuestion
    split <;> exact ih
  | jump s n hs ih =>
    cases n with
    | none => exact ih
    | some m =>
      simp only [jumpToQuestion]
      split <;> exact ih

/-- Witness for C1: a concrete reachable state (start with one question,
then answer it correctly) satisfies the invariant. -/
theorem score_matches_recount_witness :
    (clickOption (startQuiz (fun _ => 0) [⟨"q0", ["x", "y"], 1⟩]) 1).1.score
      = scoreCount (clickOption (startQuiz (fun _ => 0) [⟨"q0", ["x", "y"], 1⟩]) 1).1.answeredQuestions :=
  score_matches_recount _
    (Reachable.click _ 1 (Reachable.start (fun _ => 0) [⟨"q0", ["x", "y"], 1⟩]))

/-! ### Example states used by witnesses and counterexamples -/

/-- Example question with two options, correct index 0. -/
def qEx0 : Question := ⟨"q0", ["x", "y"], 0⟩

/-- Example question with three options, correct index 2. -/
def qEx1 : Question := ⟨"q1", ["x", "y", "z"], 2⟩

/-- Session holding one question, already answered correctly (score 1). -/
def sAnsEx : QuizState := ⟨[qEx0], 0, 1, [(0, ⟨0, 0⟩)]⟩

/-- Fresh session holding one unanswered three-option question. -/
def sFreshEx : QuizState := ⟨[qEx1], 0, 0, []⟩

/-- Fresh session holding three questions, positioned at the first. -/
def sJmpEx : QuizState := ⟨[qEx0, qEx1, qEx0], 0, 0, []⟩

/-- Fresh session holding two questions, positioned at the first. -/
def sNavEx : QuizState := ⟨[qEx0, qEx1], 0, 0, []⟩

/-! ### Claim theorems -/

/-- C2 (counterexample): with the current question already answered, a click
with an out-of-range option index is rejected as `invalidOption` (no such
button exists), not as `alreadyAnswered` — so "any further answer call fails
with AlreadyAnswered" is false as stated, though the state is unchanged. -/
theorem answered_outOfRange_click_invalidOption :
    mapGet sAnsEx.answeredQuestions sAnsEx.currentQuestionIndex = some ⟨0, 0⟩ ∧
    (clickOption sAnsEx 2).1 = sAnsEx ∧
    (clickOption sAnsEx 2).2 = ClickResult.invalidOption ∧
    (clickOption sAnsEx 2).2 ≠ ClickResult.alreadyAnswered := by decide

/-- C2 (amended): when the current question is already answered, every
further click leaves the whole session state unchanged (in particular the
stored `AnswerRecord` and the score); it is rejected as `alreadyAnswered`
when the index is in range and as `invalidOption` otherwise. -/
theorem answered_click_noop (s : QuizState) (question : Question)
    (hq : s.currentQuestions[s.currentQuestionIndex]? = some question)
    (r : AnswerRecord)
    (ha : mapGet s.answeredQuestions s.currentQuestionIndex = some r)
    (i : Nat) :
    (clickOption s i).1 = s ∧
    (i < question.o.length → (clickOption s i).2 = ClickResult.alreadyAnswered) ∧
    (¬ i < question.o.length → (clickOption s i).2 = ClickResult.invalidOption) := by
  by_cases hi : i < question.o.length
  · simp [clickOption, hq, hi, ha]
  · simp [clickOption, hq, hi]

/-- Witness for the amended C2 at a concrete answered session. -/
theorem answered_click_noop_witness :
    (clickOption sAnsEx 0).1 = sAnsEx ∧
    (0 < qEx0.o.length → (clickOption sAnsEx 0).2 = ClickResult.alreadyAnswered) ∧
    (¬ 0 < qEx0.o.length → (clickOption sAnsEx 0).2 = ClickResult.invalidOption) :=
  answered_click_noop sAnsEx qEx0 rfl ⟨0, 0⟩ rfl 0

/-- C3: `startQuiz` — also as a restart, since it reads none of the prior
session state — leaves `currentQuestions` a permutation of the bank with
equal length, `currentQuestionIndex = 0`, `answeredQuestions` empty and
`score = 0`, whatever the random draws. -/
theorem startQuiz_spec (rand : Nat → Nat) (bank : List Question)
    (_h : bank ≠ []) :
    (startQuiz rand bank).currentQuestions.Perm bank ∧
    (startQuiz rand bank).currentQuestions.length = bank.length ∧
    (startQuiz rand bank).currentQuestionIndex = 0 ∧
    (startQuiz rand bank).answeredQuestions = [] ∧
    (startQuiz rand bank).score = 0 :=
  ⟨shuffleArray_perm rand bank, (shuffleArray_perm rand bank).length_eq,
   rfl, rfl, rfl⟩

/-- Witness for C3 at a concrete two-question bank. -/
theorem startQuiz_spec_witness :
    (([qEx0, qEx1] : List Question) ≠ []) ∧
    ((startQuiz (fun _ => 0) [qEx0, qEx1]).currentQuestions.Perm [qEx0, qEx1] ∧
     (startQuiz (fun _ => 0) [qEx0, qEx1]).currentQuestions.length
       = ([qEx0, qEx1] : List Question).length ∧
     (startQuiz (fun _ => 0) [qEx0, qEx1]).currentQuestionIndex = 0 ∧
     (startQuiz (fun _ => 0) [qEx0, qEx1]).answeredQuestions = [] ∧
     (startQuiz (fun _ => 0) [qEx0, qEx1]).score = 0) :=
  ⟨by decide, startQuiz_spec (fun _ => 0) [qEx0, qEx1] (by decide)⟩

/-- C4: `jumpToQuestion` succeeds exactly on integers `n` with
`1 ≤ n ≤ currentQuestions.length`, setting the index to `n - 1`; on an
out-of-range integer, or on `NaN` input (`none`), the state is unchanged
and the alert carries the range `[1, currentQuestions.length]`. -/
theorem jumpToQuestion_spec (s : QuizState) (n : Int) :
    (1 ≤ n ∧ n ≤ (s.currentQuestions.length : Int) →
      jumpToQuestion s (some n)
        = ({ s with currentQuestionIndex := (n - 1).toNat }, none)) ∧
    (¬ (1 ≤ n ∧ n ≤ (s.currentQuestions.length : Int)) →
      jumpToQuestion s (some n)
        = (s, some (1, (s.currentQuestions.length : Int)))) ∧
    jumpToQuestion s none = (s, some (1, (s.currentQuestions.length : Int))) := by
  refine ⟨fun h => ?_, fun h => ?_, rfl⟩
  · simp [jumpToQuestion, h]
  · simp [jumpToQuestion, h]

/-- Witness for C4: jumping to question 2 of 3 moves the index to 1. -/
theorem jumpToQuestion_spec_witness :
    (1 ≤ (2 : Int) ∧ (2 : Int) ≤ (sJmpEx.currentQuestions.length : Int)) ∧
    jumpToQuestion sJmpEx (some 2)
      = ({ sJmpEx with currentQuestionIndex := ((2 : Int) - 1).toNat }, none) :=
  ⟨by decide, (jumpToQuestion_spec sJmpEx 2).1 (by decide)⟩

/-- C5: a click with an option index out of `[0, question.o.length)` — no
such button is ever created — changes nothing and is rejected as
`invalidOption`, whatever the session state. -/
theorem invalid_option_noop (s : QuizState) (question : Question)
    (hq : s.currentQuestions[s.currentQuestionIndex]? = some question)
    (i : Nat) (hi : ¬ i < question.o.length) :
    clickOption s i = (s, ClickResult.invalidOption) := by
  simp [clickOption, hq, hi]

/-- Witness for C5: option index 5 on a three-option question. -/
theorem invalid_option_noop_witness :
    clickOption sFreshEx 5 = (sFreshEx, ClickResult.invalidOption) :=
  invalid_option_noop sFreshEx qEx1 rfl 5 (by decide)

/-- C6: `nextQuestion` adds exactly 1 to the index unless it is at (or past)
the last position `length - 1`, where it does nothing; `prevQuestion`
subtracts exactly 1 unless the index is 0, where it does nothing; neither
returns any error signal (the definitions have none to return). -/
theorem nav_clamped (s : QuizState) :
    (s.currentQuestionIndex < s.currentQuestions.length - 1 →
      nextQuestion s
        = { s with currentQuestionIndex := s.currentQuestionIndex + 1 }) ∧
    (¬ s.currentQuestionIndex < s.currentQuestions.length - 1 →
      nextQuestion s = s) ∧
    (0 < s.currentQuestionIndex →
      prevQuestion s
        = { s with currentQuestionIndex := s.currentQuestionIndex - 1 }) ∧
    (s.currentQuestionIndex = 0 → prevQuestion s = s) := by
  refine ⟨fun h => ?_, fun h => ?_, fun h => ?_, fun h => ?_⟩ <;>
    simp [nextQuestion, prevQuestion, h]

/-- Witness for C6: at position 0 of 2 questions, next advances and prev is
a no-op. -/
theorem nav_clamped_witness :
    nextQuestion sNavEx
      = { sNavEx with currentQuestionIndex := sNavEx.currentQuestionIndex + 1 } ∧
    prevQuestion sNavEx = sNavEx :=
  ⟨(nav_clamped sNavEx).1 (by decide), (nav_clamped sNavEx).2.2.2 (by decide)⟩

/-- C7 (counterexample): `startQuiz` run over an existing session with score
1 and an answered question, given the empty bank, does not fail and does
not leave the session untouched: it establishes a fresh, fully reset state
with an empty question list — no `EmptyBank` signal exists in the code
(lines 45-60 perform no emptiness check and return nothing). -/
theorem startQuiz_empty_establishes_state :
    startQuiz (fun _ => 0) [] ≠ sAnsEx ∧
    startQuiz (fun _ => 0) []
      = { currentQuestions := [], currentQuestionIndex := 0, score := 0,
          answeredQuestions := [] } := by decide

/-- C7 (amended): `startQuiz` with an empty bank signals nothing and resets
the session to an empty-order state (`currentQuestions = []`, index 0,
score 0, no answers); rendering is then skipped only because of
`loadQuestion`'s bounds check (line 67). -/
theorem startQuiz_empty_resets (rand : Nat → Nat) :
    startQuiz rand []
      = { currentQuestions := [], currentQuestionIndex := 0, score := 0,
          answeredQuestions := [] } := rfl

/-- C8: `shuffleArray` — the Fisher-Yates loop embedded in
`fisherYatesFrom`, iterating `i` from `length - 1` down to `1` with
`j = rand i % (i + 1) ∈ [0, i]` — always returns a permutation of its
input: the same elements with the same multiplicities, hence the same
length. -/
theorem shuffle_is_permutation {α : Type} (rand : Nat → Nat) (x : List α) :
    (shuffleArray rand x).Perm x ∧ (shuffleArray rand x).length = x.length :=
  ⟨shuffleArray_perm rand x, (shuffleArray_perm rand x).length_eq⟩

/-! ### Heap lemmas -/

/-- Reading back an in-range write yields the written contents. -/
theorem readArr_write_self (s : Store α) (r : Nat) (v : List α)
    (h : r < s.length) : readArr (writeArr s r v) r = v := by
  simp [readArr, writeArr, List.getD_eq_getElem?_getD,
    List.getElem?_set_eq_of_lt v h]

/-- A write leaves every other reference untouched. -/
theorem readArr_write_ne (s : Store α) (r r2 : Nat) (v : List α)
    (h : r ≠ r2) : readArr (writeArr s r v) r2 = readArr s r2 := by
  simp [readArr, writeArr, List.getD_eq_getElem?_getD, List.getElem?_set_ne h]

/-- C9 (counterexample): after `shuffleArray` is called on the array at
reference 0 holding `[0, 1]`, with the draw picking `j = 0`, that very
array holds `[1, 0]` — the caller's input is mutated, so "shuffle operates
on a copy and leaves the passed sequence unchanged" is false of the code. -/
theorem shuffle_call_mutates_input :
    readArr (shuffleArrayCall (fun _ => 0) [[0, 1]] 0).1 0
      ≠ readArr ([[0, 1]] : Store Nat) 0 := by decide

/-- C9 (amended): `shuffleArray` shuffles the caller's array in place — on
return the passed array holds exactly the returned contents,
`shuffleArray` of its prior contents, a permutation of them but in general
in a different order; a caller wanting the original intact must pass a copy
(as `startQuiz` does). -/
theorem shuffleArrayCall_inPlace {α : Type} (rand : Nat → Nat) (s : Store α)
    (r : Nat) :
    (shuffleArrayCall rand s r).2 = r ∧
    readArr (shuffleArrayCall rand s r).1 r = shuffleArray rand (readArr s r) ∧
    (readArr (shuffleArrayCall rand s r).1 r).Perm (readArr s r) := by
  have hmain : readArr (shuffleArrayCall rand s r).1 r
      = shuffleArray rand (readArr s r) := by
    by_cases hr : r < s.length
    · exact readArr_write_self s r _ hr
    · have hle : s.length ≤ r := Nat.le_of_not_lt hr
      have h0 : readArr s r = [] := by
        simp [readArr, List.getD_eq_getElem?_getD, List.getElem?_eq_none hle]
      show readArr (writeArr s r (shuffleArray rand (readArr s r))) r
          = shuffleArray rand (readArr s r)
      rw [writeArr, List.set_eq_of_length_le hle, h0]
      rfl
  exact ⟨rfl, hmain, by rw [hmain]; exact shuffleArray_perm rand (readArr s r)⟩

/-- C10: `startQuiz` never modifies the external `allQuestions` array: the
spread `[...allQuestions]` allocates a fresh array, the in-place shuffle
mutates only that fresh array, and so after the call the bank reference
reads back unchanged while the session order is a permutation of it. -/
theorem startQuizCall_preserves_bank (rand : Nat → Nat) (s : Store Question)
    (aq : Nat) (h : aq < s.length) :
    readArr (startQuizCall rand s aq).1 aq = readArr s aq ∧
    (startQuizCall rand s aq).2.currentQuestions.Perm (readArr s aq) := by
  have hne : s.length ≠ aq := fun hh => absurd (hh ▸ h) (Nat.lt_irrefl _)
  have hread : readArr (s ++ [readArr s aq]) s.length = readArr s aq := by
    simp [readArr, List.getD_eq_getElem?_getD, List.getElem?_concat_length]
  have haq : readArr (s ++ [readArr s aq]) aq = readArr s aq := by
    simp [readArr, List.getD_eq_getElem?_getD, List.getElem?_append_left h]
  have hlen : s.length < (s ++ [readArr s aq]).length := by simp
  constructor
  · show readArr
        (writeArr (s ++ [readArr s aq]) s.length
          (shuffleArray rand (readArr (s ++ [readArr s aq]) s.length))) aq
      = readArr s aq
    rw [readArr_write_ne _ _ _ _ hne, haq]
  · show (readArr
        (writeArr (s ++ [readArr s aq]) s.length
          (shuffleArray rand (readArr (s ++ [readArr s aq]) s.length)))
        s.length).Perm (readArr s aq)
    rw [readArr_write_self _ _ _ hlen, hread]
    exact shuffleArray_perm rand (readArr s aq)

/-- Witness for C10 at a one-array store holding a two-question bank. -/
theorem startQuizCall_preserves_bank_witness :
    (0 < ([[qEx0, qEx1]] : Store Question).length) ∧
    (readArr (startQuizCall (fun _ => 0) [[qEx0, qEx1]] 0).1 0
        = readArr ([[qEx0, qEx1]] : Store Question) 0 ∧
     (startQuizCall (fun _ => 0) [[qEx0, qEx1]] 0).2.currentQuestions.Perm
        (readArr ([[qEx0, qEx1]] : Store Question) 0)) :=
  ⟨by decide,
   startQuizCall_preserves_bank (fun _ => 0) [[qEx0, qEx1]] 0 (by decide)⟩
